import Mathlib

/-!
Verification development for the cipher-stratego repository.

The repository ships the Anchor IDL of the on-chain program
(packages/ui/types/cipher_stratego.json), the client library
(packages/ui/lib/solana.ts, lib/arcium.ts) and integration tests; the Rust
instruction handlers themselves are compiled into the IDL.  Declarative data
(account layout, enum variants, error table, instruction account lists, PDA
seeds) is embedded below verbatim from the IDL and from solana.ts; the
instruction semantics that is not shipped in source form is modelled from the
specification, with each such definition marked in its doc comment.
-/

namespace CipherStratego

/-! ## Data embedded from the IDL (packages/ui/types/cipher_stratego.json) -/

/-- Field names of the persisted `Game` account, in declaration order,
from the `Game` struct of the IDL. -/
def idlGameFieldNames : List String :=
  ["players", "turn_number", "board_states", "nonces", "public_keys",
   "game_log", "log_idx", "game_state", "game_seed", "boards_submitted"]

/-- Variant names of the `GameState` enum of the IDL, in declaration order. -/
def gameStateVariants : List String :=
  ["AwaitingPlayer", "BoardSetup", "P1Turn", "P2Turn", "P1Won", "P2Won"]

/-- Error table of the IDL: code and name of every error the program
surfaces to callers. -/
def idlErrors : List (Nat × String) :=
  [(6000, "GameAlreadyFull"), (6001, "InvalidGameState"),
   (6002, "BoardAlreadySubmitted"), (6003, "NotYourTurn"),
   (6004, "SquareAlreadyTargeted"), (6005, "GameNotOver"),
   (6006, "BoardsNotSubmitted"), (6007, "PlayerCannotJoinOwnGame")]

/-- Names in the IDL error table. -/
def idlErrorNames : List String := idlErrors.map Prod.snd

/-- Account list of the `reveal_boards_callback` instruction in the IDL:
it receives only the payer, not the game account. -/
def revealBoardsCallbackAccounts : List String := ["payer"]

/-! ## Game PDA derivation (lib/solana.ts getGamePda and the IDL pda seeds) -/

/-- Constant seed tag of the game PDA, the byte constant
[103, 97, 109, 101] from the IDL (the UTF-8 bytes of the string used by
getGamePda in solana.ts). -/
def gamePdaTag : List Nat := [103, 97, 109, 101]

/-- Little-endian 8-byte encoding of a u64, as produced by
BN.toArrayLike(Buffer, le, 8) in getGamePda. -/
def u64LEBytes (n : Nat) : List Nat :=
  (List.range 8).map fun i => n % 2 ^ 64 / 256 ^ i % 256

/-- Seed list from which the game address is derived: the constant tag
followed by the 8-byte little-endian game seed (getGamePda in solana.ts,
matching the pda seeds declared on initialize_game in the IDL). -/
def gamePdaSeeds (gameSeed : Nat) : List Nat :=
  gamePdaTag ++ u64LEBytes gameSeed

/-! ## The game record, mirroring the `Game` account of the IDL -/

/-- The `GameState` enum of the IDL: six variants, two of them terminal. -/
inductive GameState
  | awaitingPlayer
  | boardSetup
  | p1Turn
  | p2Turn
  | p1Won
  | p2Won
  deriving DecidableEq, Repr

/-- The `HitOrMiss` enum of the IDL. -/
inductive HitOrMiss
  | miss
  | hit
  deriving DecidableEq, Repr

/-- The `Coordinate` struct of the IDL. -/
structure Coordinate where
  x : Nat
  y : Nat
  deriving DecidableEq, Repr

/-- The `Shot` struct of the IDL: targeter, coordinate and result. -/
structure Shot where
  player : Nat
  coord : Coordinate
  result : HitOrMiss
  deriving DecidableEq, Repr

/-- The persisted `Game` account of the IDL.  Public keys are modelled as
naturals (the default key being 0); fixed-size byte arrays as lists of
naturals.  The two-element on-chain arrays are modelled as pairs, index 0
being the first component. -/
structure Game where
  players : Nat × Nat
  turnNumber : Nat
  boardStates : List (List Nat) × List (List Nat)
  nonces : List Nat × List Nat
  publicKeys : List Nat × List Nat
  gameLog : List Shot
  logIdx : Nat
  gameState : GameState
  gameSeed : Nat
  boardsSubmitted : Bool × Bool
  deriving DecidableEq, Repr

/-- The sentinel value of an unset player slot (PublicKey.default in the
tests). -/
def defaultPubkey : Nat := 0

/-- The error enum of the IDL, one constructor per entry of the error
table. -/
inductive CSError
  | gameAlreadyFull
  | invalidGameState
  | boardAlreadySubmitted
  | notYourTurn
  | squareAlreadyTargeted
  | gameNotOver
  | boardsNotSubmitted
  | playerCannotJoinOwnGame
  deriving DecidableEq, Repr

/-! ## Instruction semantics

The Rust instruction handlers are not shipped in source form; the definitions
below are modelled from the specification, constrained by the IDL declarations
(argument types, account lists, doc comments) and the integration tests. -/

/-- Modelled from the spec: the initialize_game handler (source absent; the
IDL declares the instruction with its pda seeds and doc comment, and the
tests observe the resulting record).  Creates the record at the address
derived from gamePdaSeeds, with the caller as player 1, the default key as
player 2 and phase AwaitingPlayer; fails when a record already exists at the
derived address.  The occupied predicate stands for existence of an account
at an address. -/
def initializeGame (caller gameSeed : Nat) (occupied : List Nat → Bool) :
    Option Game :=
  if occupied (gamePdaSeeds gameSeed) then none
  else some
    { players := (caller, defaultPubkey),
      turnNumber := 0,
      boardStates :=
        (List.replicate 8 (List.replicate 32 0),
         List.replicate 8 (List.replicate 32 0)),
      nonces := (List.replicate 16 0, List.replicate 16 0),
      publicKeys := (List.replicate 32 0, List.replicate 32 0),
      gameLog := [],
      logIdx := 0,
      gameState := GameState.awaitingPlayer,
      gameSeed := gameSeed,
      boardsSubmitted := (false, false) }

/-- Modelled from the spec: the join_game handler (source absent; the IDL doc
comment lists its three validations).  Requires phase AwaitingPlayer, a free
second slot and a caller distinct from player 1; sets player 2 and moves the
phase to BoardSetup. -/
def joinGame (caller : Nat) (g : Game) : Except CSError Game :=
  if g.gameState ≠ GameState.awaitingPlayer then
    Except.error CSError.gameAlreadyFull
  else if g.players.2 ≠ defaultPubkey then
    Except.error CSError.gameAlreadyFull
  else if caller = g.players.1 then
    Except.error CSError.playerCannotJoinOwnGame
  else
    Except.ok { g with players := (g.players.1, caller),
                       gameState := GameState.boardSetup }

/-- Modelled from the spec: the submit_board handler (source absent; the IDL
doc comment lists its validations and the transition to P1Turn).  Requires
phase BoardSetup, a caller among the players and an unset latch for that
caller; stores the opaque triple, latches, and moves to P1Turn once both
latches are set. -/
def submitBoard (caller : Nat) (encryptedRows : List (List Nat))
    (publicKey nonce : List Nat) (g : Game) : Except CSError Game :=
  if g.gameState ≠ GameState.boardSetup then
    Except.error CSError.invalidGameState
  else if caller = g.players.1 then
    if g.boardsSubmitted.1 then Except.error CSError.boardAlreadySubmitted
    else
      Except.ok
        { g with boardStates := (encryptedRows, g.boardStates.2),
                 publicKeys := (publicKey, g.publicKeys.2),
                 nonces := (nonce, g.nonces.2),
                 boardsSubmitted := (true, g.boardsSubmitted.2),
                 gameState :=
                   if g.boardsSubmitted.2 then GameState.p1Turn
                   else GameState.boardSetup }
  else if caller = g.players.2 then
    if g.boardsSubmitted.2 then Except.error CSError.boardAlreadySubmitted
    else
      Except.ok
        { g with boardStates := (g.boardStates.1, encryptedRows),
                 publicKeys := (g.publicKeys.1, publicKey),
                 nonces := (g.nonces.1, nonce),
                 boardsSubmitted := (g.boardsSubmitted.1, true),
                 gameState :=
                   if g.boardsSubmitted.1 then GameState.p1Turn
                   else GameState.boardSetup }
  else Except.error CSError.invalidGameState

/-! ## The pending-computation protocol -/

/-- Kind tag of a pending asynchronous request (spec section 4.3). -/
inductive ReqKind
  | fireShotReq
  | revealReq
  deriving DecidableEq, Repr

/-- Modelled from the spec: the single-slot pending request, with kind,
correlation id, initiating player and optional coordinate.  The IDL `Game`
account carries no such field, so in this model the slot lives beside the
record in the protocol state. -/
structure PendingRequest where
  kind : ReqKind
  correlationId : Nat
  initiatingPlayer : Nat
  coord : Option Coordinate
  deriving DecidableEq, Repr

/-- Protocol state: the persisted game record together with the single-slot
pending request maintained by the asynchronous computation machinery. -/
structure ProtState where
  game : Game
  pending : Option PendingRequest
  deriving DecidableEq, Repr

/-- Whether the given coordinate already appears in the shot log for the
given targeter. -/
def alreadyTargeted (g : Game) (caller : Nat) (c : Coordinate) : Bool :=
  g.gameLog.any fun s => s.player = caller ∧ s.coord = c

/-- Modelled from the spec: the fire_shot handler (source absent; the IDL
declares the instruction arguments).  Requires no pending computation, the
turn phase matching the caller, and a square not already targeted by the
caller; registers the pending request and changes nothing else. -/
def fireShot (caller correlationId : Nat) (c : Coordinate) (s : ProtState) :
    Except CSError ProtState :=
  if s.pending.isSome then Except.error CSError.invalidGameState
  else if s.game.gameState = GameState.p1Turn then
    if caller ≠ s.game.players.1 then Except.error CSError.notYourTurn
    else if alreadyTargeted s.game caller c then
      Except.error CSError.squareAlreadyTargeted
    else
      Except.ok
        { s with pending := some ⟨ReqKind.fireShotReq, correlationId, caller, some c⟩ }
  else if s.game.gameState = GameState.p2Turn then
    if caller ≠ s.game.players.2 then Except.error CSError.notYourTurn
    else if alreadyTargeted s.game caller c then
      Except.error CSError.squareAlreadyTargeted
    else
      Except.ok
        { s with pending := some ⟨ReqKind.fireShotReq, correlationId, caller, some c⟩ }
  else Except.error CSError.notYourTurn

/-- The `ComputationOutputs` enum of the IDL: a success payload of bytes, or
an abort signal. -/
inductive ComputationOutputs
  | bytes (b : List Nat)
  | abort
  deriving DecidableEq, Repr

/-- Modelled from the spec: decoding of the check_shot output bytes (the MPC
circuit source is absent); the first byte is the hit flag and the second the
fleet-destroyed flag. -/
def decodeShotResult (b : List Nat) : HitOrMiss × Bool :=
  ((if b.getD 0 0 ≠ 0 then HitOrMiss.hit else HitOrMiss.miss),
   b.getD 1 0 != 0)

/-- Modelled from the spec: the fire_shot_callback handler (source absent).
Requires a pending request of kind fireShotReq; on abort it only clears the
slot; on success from a turn phase it appends the shot, increments the turn
number, flips the phase or enters the winning phase, clearing the slot with
the same update; from any other phase the stray callback is a defensive
no-op that clears the slot. -/
def fireShotCallback (output : ComputationOutputs) (s : ProtState) :
    Except CSError ProtState :=
  match s.pending with
  | none => Except.error CSError.invalidGameState
  | some req =>
    if req.kind ≠ ReqKind.fireShotReq then
      Except.error CSError.invalidGameState
    else
      match output with
      | ComputationOutputs.abort => Except.ok { s with pending := none }
      | ComputationOutputs.bytes b =>
        if s.game.gameState = GameState.p1Turn ∨
            s.game.gameState = GameState.p2Turn then
          let r := decodeShotResult b
          let shooter := req.initiatingPlayer
          let coord := req.coord.getD ⟨0, 0⟩
          let nextPhase :=
            if r.2 then
              (if shooter = s.game.players.1 then GameState.p1Won
               else GameState.p2Won)
            else if s.game.gameState = GameState.p1Turn then GameState.p2Turn
            else GameState.p1Turn
          Except.ok
            { game :=
                { s.game with
                    gameLog := s.game.gameLog ++ [⟨shooter, coord, r.1⟩],
                    logIdx := s.game.logIdx + 1,
                    turnNumber := s.game.turnNumber + 1,
                    gameState := nextPhase },
              pending := none }
        else Except.ok { s with pending := none }

/-- Modelled from the spec: the reveal_boards handler (source absent; the IDL
declares the instruction arguments).  Requires a terminal phase and no
pending computation; registers the pending reveal request. -/
def revealBoards (caller correlationId : Nat) (s : ProtState) :
    Except CSError ProtState :=
  if ¬ (s.game.gameState = GameState.p1Won ∨
        s.game.gameState = GameState.p2Won) then
    Except.error CSError.gameNotOver
  else if s.pending.isSome then Except.error CSError.invalidGameState
  else
    Except.ok
      { s with pending := some ⟨ReqKind.revealReq, correlationId, caller, none⟩ }

/-- The `BoardRevealEvent` of the IDL: both 8x8 plaintext boards. -/
structure BoardRevealEvent where
  p1Board : List (List Nat)
  p2Board : List (List Nat)
  deriving DecidableEq, Repr

/-- Modelled from the spec: decoding of the reveal output bytes into the two
8x8 plaintext boards (the MPC circuit source is absent); the first 64 bytes
are board one and the next 64 bytes board two, row by row. -/
def decodeBoards (b : List Nat) : List (List Nat) × List (List Nat) :=
  ((List.range 8).map fun r => (List.range 8).map fun c => b.getD (8 * r + c) 0,
   (List.range 8).map fun r =>
     (List.range 8).map fun c => b.getD (64 + 8 * r + c) 0)

/-- Modelled from the spec: the reveal_boards_callback handler (source
absent; its IDL account list contains only the payer, so it cannot write the
game account).  Requires a pending request of kind revealReq; on success it
emits the audit event and clears the slot, leaving the record untouched; on
abort it clears the slot without an event. -/
def revealBoardsCallback (output : ComputationOutputs) (s : ProtState) :
    Except CSError (ProtState × Option BoardRevealEvent) :=
  match s.pending with
  | none => Except.error CSError.invalidGameState
  | some req =>
    if req.kind ≠ ReqKind.revealReq then
      Except.error CSError.invalidGameState
    else
      match output with
      | ComputationOutputs.abort => Except.ok ({ s with pending := none }, none)
      | ComputationOutputs.bytes b =>
        Except.ok ({ s with pending := none },
          some ⟨(decodeBoards b).1, (decodeBoards b).2⟩)

/-- Modelled from the spec: the forfeit handler (source absent).  Requires a
caller among the players and a non-terminal phase; sets the phase to the
winning phase of the opponent, regardless of any pending computation. -/
def forfeit (caller : Nat) (s : ProtState) : Except CSError ProtState :=
  if s.game.gameState = GameState.p1Won ∨
      s.game.gameState = GameState.p2Won then
    Except.error CSError.invalidGameState
  else if caller = s.game.players.1 then
    Except.ok { s with game := { s.game with gameState := GameState.p2Won } }
  else if caller = s.game.players.2 then
    Except.ok { s with game := { s.game with gameState := GameState.p1Won } }
  else Except.error CSError.invalidGameState

/-! ## The phase graph and the step relation -/

/-- Directed phase edges of the state machine: join, the second board
submission, a resolved shot (flip or win), and forfeit from any non-terminal
phase. -/
def phaseEdgeB : GameState → GameState → Bool
  | GameState.awaitingPlayer, GameState.boardSetup => true
  | GameState.boardSetup, GameState.p1Turn => true
  | GameState.p1Turn, GameState.p2Turn => true
  | GameState.p2Turn, GameState.p1Turn => true
  | GameState.awaitingPlayer, GameState.p1Won => true
  | GameState.awaitingPlayer, GameState.p2Won => true
  | GameState.boardSetup, GameState.p1Won => true
  | GameState.boardSetup, GameState.p2Won => true
  | GameState.p1Turn, GameState.p1Won => true
  | GameState.p1Turn, GameState.p2Won => true
  | GameState.p2Turn, GameState.p1Won => true
  | GameState.p2Turn, GameState.p2Won => true
  | _, _ => false

/-- One successful instruction applied to an existing game: each constructor
wraps one of the modelled handlers succeeding. -/
inductive Step : ProtState → ProtState → Prop
  | join (caller : Nat) (s : ProtState) (g : Game) :
      joinGame caller s.game = Except.ok g → Step s ⟨g, s.pending⟩
  | submit (caller : Nat) (rows : List (List Nat)) (pk nonce : List Nat)
      (s : ProtState) (g : Game) :
      submitBoard caller rows pk nonce s.game = Except.ok g →
      Step s ⟨g, s.pending⟩
  | fire (caller cid : Nat) (c : Coordinate) (s t : ProtState) :
      fireShot caller cid c s = Except.ok t → Step s t
  | fireCb (output : ComputationOutputs) (s t : ProtState) :
      fireShotCallback output s = Except.ok t → Step s t
  | reveal (caller cid : Nat) (s t : ProtState) :
      revealBoards caller cid s = Except.ok t → Step s t
  | revealCb (output : ComputationOutputs) (s t : ProtState)
      (e : Option BoardRevealEvent) :
      revealBoardsCallback output s = Except.ok (t, e) → Step s t
  | quit (caller : Nat) (s t : ProtState) :
      forfeit caller s = Except.ok t → Step s t

/-! ## Helper lemmas about the handlers -/

theorem joinGame_ok_iff (caller : Nat) (g : Game) :
    (∃ g', joinGame caller g = Except.ok g') ↔
      (g.gameState = GameState.awaitingPlayer ∧ caller ≠ g.players.1 ∧
        g.players.2 = defaultPubkey) := by
  unfold joinGame
  split_ifs <;> simp_all

theorem joinGame_ok_eq (caller : Nat) (g g' : Game)
    (h : joinGame caller g = Except.ok g') :
    g' = { g with players := (g.players.1, caller),
                  gameState := GameState.boardSetup } := by
  unfold joinGame at h
  split_ifs at h <;> simp_all

theorem joinGame_error (caller : Nat) (g : Game) (e : CSError)
    (h : joinGame caller g = Except.error e) :
    e = CSError.gameAlreadyFull ∨ e = CSError.playerCannotJoinOwnGame := by
  unfold joinGame at h
  split_ifs at h <;> simp_all

theorem submitBoard_ok_iff (caller : Nat) (rows : List (List Nat))
    (pk nonce : List Nat) (g : Game) :
    (∃ g', submitBoard caller rows pk nonce g = Except.ok g') ↔
      (g.gameState = GameState.boardSetup ∧
        ((caller = g.players.1 ∧ g.boardsSubmitted.1 = false) ∨
         (caller ≠ g.players.1 ∧ caller = g.players.2 ∧
           g.boardsSubmitted.2 = false))) := by
  unfold submitBoard
  split_ifs <;> simp_all

theorem submitBoard_ok_eq (caller : Nat) (rows : List (List Nat))
    (pk nonce : List Nat) (g g' : Game)
    (h : submitBoard caller rows pk nonce g = Except.ok g') :
    (caller = g.players.1 ∧ g.boardsSubmitted.1 = false ∧
      g' = { g with boardStates := (rows, g.boardStates.2),
                    publicKeys := (pk, g.publicKeys.2),
                    nonces := (nonce, g.nonces.2),
                    boardsSubmitted := (true, g.boardsSubmitted.2),
                    gameState :=
                      if g.boardsSubmitted.2 then GameState.p1Turn
                      else GameState.boardSetup }) ∨
    (caller ≠ g.players.1 ∧ caller = g.players.2 ∧
      g.boardsSubmitted.2 = false ∧
      g' = { g with boardStates := (g.boardStates.1, rows),
                    publicKeys := (g.publicKeys.1, pk),
                    nonces := (g.nonces.1, nonce),
                    boardsSubmitted := (g.boardsSubmitted.1, true),
                    gameState :=
                      if g.boardsSubmitted.1 then GameState.p1Turn
                      else GameState.boardSetup }) := by
  unfold submitBoard at h
  split_ifs at h <;> simp_all

theorem submitBoard_error (caller : Nat) (rows : List (List Nat))
    (pk nonce : List Nat) (g : Game) (e : CSError)
    (h : submitBoard caller rows pk nonce g = Except.error e) :
    e = CSError.boardAlreadySubmitted ∨ e = CSError.invalidGameState := by
  unfold submitBoard at h
  split_ifs at h <;> simp_all

theorem submitBoard_phase (caller : Nat) (rows : List (List Nat))
    (pk nonce : List Nat) (g g' : Game)
    (h : submitBoard caller rows pk nonce g = Except.ok g') :
    g.gameState = GameState.boardSetup ∧
      (g'.gameState = GameState.boardSetup ∨
        g'.gameState = GameState.p1Turn) := by
  rcases submitBoard_ok_eq caller rows pk nonce g g' h with ⟨_, _, rfl⟩ | ⟨_, _, _, rfl⟩ <;>
    rcases submitBoard_ok_iff caller rows pk nonce g |>.mp ⟨_, h⟩ with ⟨hs, _⟩ <;>
      constructor <;> first
        | exact hs
        | (simp only []; split <;> simp)

theorem fireShot_ok_game (caller cid : Nat) (c : Coordinate)
    (s t : ProtState) (h : fireShot caller cid c s = Except.ok t) :
    t.game = s.game ∧ s.pending = none ∧
      t.pending = some ⟨ReqKind.fireShotReq, cid, caller, some c⟩ := by
  unfold fireShot at h
  split_ifs at h with h1 <;> simp_all
  all_goals
    cases hp : s.pending <;> simp_all [Option.isSome] <;>
      cases h <;> simp

theorem fireShotCallback_ok (output : ComputationOutputs) (s t : ProtState)
    (h : fireShotCallback output s = Except.ok t) :
    (∃ req, s.pending = some req ∧ req.kind = ReqKind.fireShotReq) ∧
      t.pending = none := by
  obtain ⟨g, p⟩ := s
  cases p with
  | none => simp [fireShotCallback] at h
  | some req =>
    by_cases hk : req.kind = ReqKind.fireShotReq
    · refine ⟨⟨req, rfl, hk⟩, ?_⟩
      cases output with
      | abort =>
        simp [fireShotCallback, hk] at h
        simp [← h]
      | bytes b =>
        simp only [fireShotCallback, hk, ne_eq, not_true_eq_false, if_false] at h
        split_ifs at h <;> (simp at h; simp [← h])
    · cases output <;> simp [fireShotCallback, hk] at h

theorem fireShotCallback_rejects_no_pending (output : ComputationOutputs)
    (s : ProtState) (h : s.pending = none) :
    fireShotCallback output s = Except.error CSError.invalidGameState := by
  unfold fireShotCallback
  rw [h]

theorem fireShotCallback_phase (output : ComputationOutputs) (s t : ProtState)
    (h : fireShotCallback output s = Except.ok t) :
    t.game.gameState = s.game.gameState ∨
      phaseEdgeB s.game.gameState t.game.gameState = true := by
  obtain ⟨g, p⟩ := s
  cases p with
  | none => simp [fireShotCallback] at h
  | some req =>
    by_cases hk : req.kind = ReqKind.fireShotReq
    · cases output with
      | abort =>
        simp [fireShotCallback, hk] at h
        left
        simp [← h]
      | bytes b =>
        simp only [fireShotCallback, hk, ne_eq, not_true_eq_false, if_false] at h
        split_ifs at h with hturn hr2 hsh hp1 <;> simp at h <;> subst h
        · right
          rcases hturn with h1 | h1 <;> rw [h1] <;> rfl
        · right
          rcases hturn with h1 | h1 <;> rw [h1] <;> rfl
        · right
          rw [hp1]
          rfl
        · right
          rcases hturn with h1 | h1
          · exact absurd h1 hp1
          · rw [h1]
            rfl
        · left
          rfl
    · cases output <;> simp [fireShotCallback, hk] at h

theorem revealBoards_ok_game (caller cid : Nat) (s t : ProtState)
    (h : revealBoards caller cid s = Except.ok t) :
    t.game = s.game ∧ s.pending = none ∧
      (s.game.gameState = GameState.p1Won ∨
        s.game.gameState = GameState.p2Won) ∧
      t.pending = some ⟨ReqKind.revealReq, cid, caller, none⟩ := by
  unfold revealBoards at h
  split_ifs at h with h1 h2 <;> simp_all
  cases hp : s.pending <;> simp_all [Option.isSome]
  simp [← h]

theorem revealBoardsCallback_ok (output : ComputationOutputs)
    (s t : ProtState) (e : Option BoardRevealEvent)
    (h : revealBoardsCallback output s = Except.ok (t, e)) :
    t.game = s.game ∧ t.pending = none ∧
      (∃ req, s.pending = some req ∧ req.kind = ReqKind.revealReq) ∧
      (∀ b, output = ComputationOutputs.bytes b →
        e = some ⟨(decodeBoards b).1, (decodeBoards b).2⟩) ∧
      (output = ComputationOutputs.abort → e = none) := by
  obtain ⟨g, p⟩ := s
  cases p with
  | none => simp [revealBoardsCallback] at h
  | some req =>
    by_cases hk : req.kind = ReqKind.revealReq
    · cases output with
      | abort =>
        simp [revealBoardsCallback, hk] at h
        obtain ⟨h1, h2⟩ := h
        refine ⟨by simp [← h1], by simp [← h1], ⟨req, rfl, hk⟩, by simp, fun _ => h2.symm⟩
      | bytes b =>
        simp [revealBoardsCallback, hk] at h
        obtain ⟨h1, h2⟩ := h
        exact ⟨by simp [← h1], by simp [← h1], ⟨req, rfl, hk⟩,
          fun b2 hb2 => by
            obtain rfl : b2 = b := by injection hb2.symm
            exact h2.symm,
          by simp⟩
    · cases output <;> simp [revealBoardsCallback, hk] at h

theorem revealBoardsCallback_rejects_no_pending (output : ComputationOutputs)
    (s : ProtState) (h : s.pending = none) :
    revealBoardsCallback output s = Except.error CSError.invalidGameState := by
  unfold revealBoardsCallback
  rw [h]

theorem forfeit_ok (caller : Nat) (s t : ProtState)
    (h : forfeit caller s = Except.ok t) :
    (¬ (s.game.gameState = GameState.p1Won ∨
        s.game.gameState = GameState.p2Won)) ∧
      (t.game.gameState = GameState.p1Won ∨
        t.game.gameState = GameState.p2Won) := by
  unfold forfeit at h
  split_ifs at h with h1 h2 h3 <;> simp_all
  · simp [← h]
  · simp [← h]

/-- Every successful instruction either keeps the phase or moves it along a
declared edge. -/
theorem step_phase (s t : ProtState) (h : Step s t) :
    t.game.gameState = s.game.gameState ∨
      phaseEdgeB s.game.gameState t.game.gameState = true := by
  cases h with
  | join caller s g hj =>
    right
    obtain ⟨hs, _, _⟩ := (joinGame_ok_iff caller s.game).mp ⟨g, hj⟩
    have hg := joinGame_ok_eq caller s.game g hj
    subst hg
    rw [hs]
    rfl
  | submit caller rows pk nonce s g hsub =>
    obtain ⟨hold, hnew⟩ := submitBoard_phase caller rows pk nonce s.game g hsub
    rcases hnew with h1 | h1
    · left
      rw [hold, h1]
    · right
      rw [hold, h1]
      rfl
  | fire caller cid c s t hf =>
    left
    rw [(fireShot_ok_game caller cid c s t hf).1]
  | fireCb output s t hcb => exact fireShotCallback_phase output s t hcb
  | reveal caller cid s t hr =>
    left
    rw [(revealBoards_ok_game caller cid s t hr).1]
  | revealCb output s t e hcb =>
    left
    rw [(revealBoardsCallback_ok output s t e hcb).1]
  | quit caller s t hf =>
    right
    obtain ⟨hnt, hw⟩ := forfeit_ok caller s t hf
    cases hgs : s.game.gameState <;> rcases hw with h1 | h1 <;>
      rw [h1] <;> simp_all [phaseEdgeB]

/-! ## Board commitment pipeline (lib/arcium.ts)

The spec treats the symmetric cipher and the key exchange as opaque external
primitives: an injected capability with an inverse cipher and a commuting key
exchange.  encryptBoard below is the shallow embedding of the encryptBoard
function of lib/arcium.ts over such a capability, with the randomness
(ephemeral private key and the nonce byte source) passed explicitly. -/

/-- Modelled from the spec: the opaque cryptographic capability (RescueCipher
and x25519 of the external Arcium client library, out of scope per the spec).
encrypt maps a key, a nonce and one plaintext row to a list of ciphertext
blocks (the client code takes block 0); decrypt inverts the first block;
the shared secret of a private key and a peer public key is symmetric. -/
structure CryptoPrimitives where
  getPublicKey : Nat → Nat
  getSharedSecret : Nat → Nat → Nat
  encrypt : Nat → List Nat → List Nat → List (List Nat)
  decrypt : Nat → List Nat → List Nat → List Nat
  decrypt_encrypt : ∀ k n r, decrypt k n ((encrypt k n r).headD []) = r
  dh_comm : ∀ a b, getSharedSecret a (getPublicKey b) =
    getSharedSecret b (getPublicKey a)

/-- The payload returned by encryptBoard in lib/arcium.ts: the eight
ciphertext blocks, the ephemeral public key and the nonce. -/
structure EncryptedBoardPayload where
  encryptedRows : List (List Nat)
  ephemeralPublicKey : Nat
  nonce : List Nat
  deriving DecidableEq, Repr

/-- The fresh random 16-byte nonce (crypto.getRandomValues over a 16-byte
array), with the byte source passed explicitly. -/
def genNonce (rng : Nat → Nat) : List Nat :=
  (List.range 16).map fun i => rng i % 256

/-- The try-branch of encryptBoard in lib/arcium.ts: generate an ephemeral
key pair, derive the shared secret with the cluster public key, generate one
random nonce, encrypt each board row independently with the same cipher and
nonce taking the first ciphertext block, and return the blocks with the
ephemeral public key and the nonce. -/
def encryptBoardReal (cp : CryptoPrimitives) (board : List (List Nat))
    (clusterPublicKey privateKey : Nat) (rng : Nat → Nat) :
    EncryptedBoardPayload :=
  let publicKey := cp.getPublicKey privateKey
  let sharedSecret := cp.getSharedSecret privateKey clusterPublicKey
  let nonce := genNonce rng
  { encryptedRows :=
      board.map fun row => (cp.encrypt sharedSecret nonce row).headD [],
    ephemeralPublicKey := publicKey,
    nonce := nonce }

/-- createMockEncryption of lib/arcium.ts: each 32-byte block starts as
zeroes and receives the plaintext cell values of its row in the leading
positions; the public key and the nonce are random. -/
def createMockEncryption (board : List (List Nat)) (rng : Nat → Nat) :
    EncryptedBoardPayload :=
  { encryptedRows :=
      board.map fun row => (List.range 32).map fun j => row.getD j 0 % 256,
    ephemeralPublicKey := rng 16,
    nonce := genNonce rng }

/-- encryptBoard of lib/arcium.ts: when the Arcium client loads and the real
encryption succeeds (modelled by the capability being present) it returns the
real payload, and otherwise it falls back to createMockEncryption instead of
rejecting. -/
def encryptBoard (available : Option CryptoPrimitives)
    (board : List (List Nat)) (clusterPublicKey privateKey : Nat)
    (rng : Nat → Nat) : EncryptedBoardPayload :=
  match available with
  | some cp => encryptBoardReal cp board clusterPublicKey privateKey rng
  | none => createMockEncryption board rng

/-- Modelled from the spec: decryption of the ciphertext blocks with the
matching shared secret (performed by the MPC cluster, whose code is
external): each block decrypted under the same key and nonce. -/
def decryptBoard (cp : CryptoPrimitives) (key : Nat) (nonce : List Nat)
    (blocks : List (List Nat)) : List (List Nat) :=
  blocks.map fun b => cp.decrypt key nonce b

/-- A trivial stub capability, used to witness the pipeline theorems: the
cipher adds the key and the nonce total to every cell, the key exchange is
multiplication. -/
def stubCrypto : CryptoPrimitives where
  getPublicKey := id
  getSharedSecret := fun a b => a * b
  encrypt := fun k n r => [r.map fun c => c + (k + n.sum)]
  decrypt := fun k n b => b.map fun c => c - (k + n.sum)
  decrypt_encrypt := by
    intro k n r
    simp only [List.headD_cons, List.map_map]
    have : ((fun c => c - (k + n.sum)) ∘ fun c => c + (k + n.sum)) = id := by
      funext c
      simp
    rw [this, List.map_id]
  dh_comm := by
    intro a b
    simp [Nat.mul_comm]

/-! ## Concrete fixtures used by the witnesses -/

/-- A fresh record as created by initializeGame for caller 1 and seed 42. -/
def gAwait : Game :=
  { players := (1, defaultPubkey),
    turnNumber := 0,
    boardStates :=
      (List.replicate 8 (List.replicate 32 0),
       List.replicate 8 (List.replicate 32 0)),
    nonces := (List.replicate 16 0, List.replicate 16 0),
    publicKeys := (List.replicate 32 0, List.replicate 32 0),
    gameLog := [],
    logIdx := 0,
    gameState := GameState.awaitingPlayer,
    gameSeed := 42,
    boardsSubmitted := (false, false) }

/-- The record after player 2 joined. -/
def gJoined : Game :=
  { gAwait with players := (1, 2), gameState := GameState.boardSetup }

/-- The record once both boards are in and play has begun. -/
def gPlay : Game :=
  { gJoined with boardsSubmitted := (true, true),
                 gameState := GameState.p1Turn }

/-- A finished record. -/
def gWon : Game := { gPlay with gameState := GameState.p1Won }

/-- A protocol state with a pending fire-shot request by player 1. -/
def sFirePending : ProtState :=
  ⟨gPlay, some ⟨ReqKind.fireShotReq, 7, 1, some ⟨3, 4⟩⟩⟩

/-- A finished protocol state with a pending reveal request. -/
def sRevealPending : ProtState :=
  ⟨gWon, some ⟨ReqKind.revealReq, 9, 1, none⟩⟩

/-- A concrete 8x8 plaintext board: four ship cells in the first row. -/
def sampleBoard : List (List Nat) :=
  (List.range 8).map fun r =>
    (List.range 8).map fun c => if r = 0 ∧ c < 4 then 1 else 0

/-! ## Claims -/

/-- C1, counterexample: the `Game` account declared in the IDL carries no
pending-computation field at all, refuting the claim that the persisted game
record holds an Option PendingRequest slot. -/
theorem game_account_has_no_pending_field :
    ¬ ∃ f ∈ idlGameFieldNames,
        f = "pending_computation" ∨ f = "pendingComputation" := by
  decide

/-- C1, amended: the persisted `Game` account consists of exactly the ten
declared fields, none of which is a pending-computation slot; in the modelled
protocol the single pending slot lives beside the record and both callbacks
obey the discipline: a callback is accepted only when a pending request of
the matching kind exists, the slot is cleared with callback application, and
a delivered callback of either kind is never accepted twice. -/
theorem pending_request_single_slot_discipline :
    (idlGameFieldNames =
      ["players", "turn_number", "board_states", "nonces", "public_keys",
       "game_log", "log_idx", "game_state", "game_seed",
       "boards_submitted"] ∧
      ∀ f ∈ idlGameFieldNames,
        f ≠ "pending_computation" ∧ f ≠ "pendingComputation") ∧
    (∀ (out : ComputationOutputs) (s : ProtState), s.pending = none →
      fireShotCallback out s = Except.error CSError.invalidGameState ∧
      revealBoardsCallback out s = Except.error CSError.invalidGameState) ∧
    (∀ (out : ComputationOutputs) (s t : ProtState),
      fireShotCallback out s = Except.ok t →
        (∃ req, s.pending = some req ∧ req.kind = ReqKind.fireShotReq) ∧
        t.pending = none ∧
        (∀ out2, fireShotCallback out2 t =
          Except.error CSError.invalidGameState) ∧
        (∀ out2, revealBoardsCallback out2 t =
          Except.error CSError.invalidGameState)) ∧
    (∀ (out : ComputationOutputs) (s t : ProtState)
        (e : Option BoardRevealEvent),
      revealBoardsCallback out s = Except.ok (t, e) →
        (∃ req, s.pending = some req ∧ req.kind = ReqKind.revealReq) ∧
        t.pending = none ∧
        (∀ out2, revealBoardsCallback out2 t =
          Except.error CSError.invalidGameState) ∧
        (∀ out2, fireShotCallback out2 t =
          Except.error CSError.invalidGameState)) := by
  refine ⟨⟨by decide, by decide⟩, ?_, ?_, ?_⟩
  · intro out s hp
    exact ⟨fireShotCallback_rejects_no_pending out s hp,
      revealBoardsCallback_rejects_no_pending out s hp⟩
  · intro out s t h
    obtain ⟨hreq, hnone⟩ := fireShotCallback_ok out s t h
    exact ⟨hreq, hnone,
      fun out2 => fireShotCallback_rejects_no_pending out2 t hnone,
      fun out2 => revealBoardsCallback_rejects_no_pending out2 t hnone⟩
  · intro out s t e h
    obtain ⟨_, hnone, hreq, _, _⟩ := revealBoardsCallback_ok out s t e h
    exact ⟨hreq, hnone,
      fun out2 => revealBoardsCallback_rejects_no_pending out2 t hnone,
      fun out2 => fireShotCallback_rejects_no_pending out2 t hnone⟩

/-- C1, witness: the discipline instantiated on a concrete pending fire-shot
state and a concrete pending reveal state, each resolved by an abort
callback. -/
theorem pending_request_single_slot_discipline_witness :
    ((∃ req, sFirePending.pending = some req ∧
        req.kind = ReqKind.fireShotReq) ∧
      (⟨gPlay, none⟩ : ProtState).pending = none ∧
      (∀ out2, fireShotCallback out2 ⟨gPlay, none⟩ =
        Except.error CSError.invalidGameState) ∧
      (∀ out2, revealBoardsCallback out2 ⟨gPlay, none⟩ =
        Except.error CSError.invalidGameState)) ∧
    ((∃ req, sRevealPending.pending = some req ∧
        req.kind = ReqKind.revealReq) ∧
      (⟨gWon, none⟩ : ProtState).pending = none ∧
      (∀ out2, revealBoardsCallback out2 ⟨gWon, none⟩ =
        Except.error CSError.invalidGameState) ∧
      (∀ out2, fireShotCallback out2 ⟨gWon, none⟩ =
        Except.error CSError.invalidGameState)) :=
  ⟨pending_request_single_slot_discipline.2.2.1 ComputationOutputs.abort
    sFirePending ⟨gPlay, none⟩ rfl,
   pending_request_single_slot_discipline.2.2.2 ComputationOutputs.abort
    sRevealPending ⟨gWon, none⟩ none rfl⟩

/-- C2, counterexample: the `GameState` enum of the IDL has no Draw variant,
refuting the claim that the phase type includes a terminal Draw state. -/
theorem game_state_has_no_draw_variant : "Draw" ∉ gameStateVariants := by
  decide

/-- C2, amended: the phase type has exactly the six variants AwaitingPlayer,
BoardSetup, P1Turn, P2Turn, P1Won and P2Won (terminal states P1Won and P2Won
only), and every successful instruction of the modelled semantics either
keeps the phase or follows a declared edge: AwaitingPlayer to BoardSetup,
BoardSetup to P1Turn, P1Turn alternating with P2Turn, a turn phase to P1Won
or P2Won on a winning shot, and any non-terminal phase to P1Won or P2Won by
forfeit. -/
theorem phase_machine_follows_edges :
    gameStateVariants =
      ["AwaitingPlayer", "BoardSetup", "P1Turn", "P2Turn", "P1Won",
       "P2Won"] ∧
    (∀ s t : ProtState, Step s t →
      t.game.gameState = s.game.gameState ∨
        phaseEdgeB s.game.gameState t.game.gameState = true) :=
  ⟨rfl, step_phase⟩

/-- C2, witness: a concrete join step moves the phase from AwaitingPlayer
along an edge. -/
theorem phase_machine_follows_edges_witness :
    (⟨gJoined, none⟩ : ProtState).game.gameState =
        (⟨gAwait, none⟩ : ProtState).game.gameState ∨
      phaseEdgeB (⟨gAwait, none⟩ : ProtState).game.gameState
        (⟨gJoined, none⟩ : ProtState).game.gameState = true :=
  phase_machine_follows_edges.2 ⟨gAwait, none⟩ ⟨gJoined, none⟩
    (Step.join 2 ⟨gAwait, none⟩ gJoined rfl)

/-- C3, counterexample: every error in the IDL error table is one of the
eight named ones, refuting the claim of an additional distinct busy or
already-pending error. -/
theorem error_taxonomy_no_busy_error :
    ¬ ∃ e ∈ idlErrorNames,
        e ∉ ["GameAlreadyFull", "InvalidGameState", "BoardAlreadySubmitted",
             "NotYourTurn", "SquareAlreadyTargeted", "GameNotOver",
             "BoardsNotSubmitted", "PlayerCannotJoinOwnGame"] := by
  decide

/-- C3, amended: the error taxonomy surfaced to callers is exactly the eight
errors GameAlreadyFull, InvalidGameState, BoardAlreadySubmitted, NotYourTurn,
SquareAlreadyTargeted, GameNotOver, BoardsNotSubmitted and
PlayerCannotJoinOwnGame, with codes 6000 to 6007 and no busy or
already-pending error. -/
theorem error_taxonomy_exact :
    idlErrors =
      [(6000, "GameAlreadyFull"), (6001, "InvalidGameState"),
       (6002, "BoardAlreadySubmitted"), (6003, "NotYourTurn"),
       (6004, "SquareAlreadyTargeted"), (6005, "GameNotOver"),
       (6006, "BoardsNotSubmitted"), (6007, "PlayerCannotJoinOwnGame")] :=
  rfl

/-- C4: submit_board succeeds exactly when the phase is BoardSetup, the
caller is one of the two players and the latch of the caller index is unset;
on success it stores the opaque triple at the caller index, sets the latch,
and the phase becomes P1Turn exactly when both latches are now set; on
failure the error is BoardAlreadySubmitted or InvalidGameState (the record,
returned only on success, is untouched by a failure). -/
theorem submit_board_spec (caller : Nat) (rows : List (List Nat))
    (pk nonce : List Nat) (g : Game) :
    ((∃ g', submitBoard caller rows pk nonce g = Except.ok g') ↔
      (g.gameState = GameState.boardSetup ∧
        ((caller = g.players.1 ∧ g.boardsSubmitted.1 = false) ∨
         (caller ≠ g.players.1 ∧ caller = g.players.2 ∧
           g.boardsSubmitted.2 = false)))) ∧
    (∀ g', submitBoard caller rows pk nonce g = Except.ok g' →
      ((caller = g.players.1 ∧ g.boardsSubmitted.1 = false ∧
          g' = { g with boardStates := (rows, g.boardStates.2),
                        publicKeys := (pk, g.publicKeys.2),
                        nonces := (nonce, g.nonces.2),
                        boardsSubmitted := (true, g.boardsSubmitted.2),
                        gameState :=
                          if g.boardsSubmitted.2 then GameState.p1Turn
                          else GameState.boardSetup }) ∨
        (caller ≠ g.players.1 ∧ caller = g.players.2 ∧
          g.boardsSubmitted.2 = false ∧
          g' = { g with boardStates := (g.boardStates.1, rows),
                        publicKeys := (g.publicKeys.1, pk),
                        nonces := (g.nonces.1, nonce),
                        boardsSubmitted := (g.boardsSubmitted.1, true),
                        gameState :=
                          if g.boardsSubmitted.1 then GameState.p1Turn
                          else GameState.boardSetup })) ∧
      (g'.gameState = GameState.p1Turn ↔
        (g'.boardsSubmitted.1 = true ∧ g'.boardsSubmitted.2 = true))) ∧
    (∀ e, submitBoard caller rows pk nonce g = Except.error e →
      e = CSError.boardAlreadySubmitted ∨ e = CSError.invalidGameState) := by
  refine ⟨submitBoard_ok_iff caller rows pk nonce g, ?_,
    submitBoard_error caller rows pk nonce g⟩
  intro g' h
  refine ⟨submitBoard_ok_eq caller rows pk nonce g g' h, ?_⟩
  rcases submitBoard_ok_eq caller rows pk nonce g g' h with
    ⟨_, _, rfl⟩ | ⟨_, _, _, rfl⟩ <;>
    (simp only []; split_ifs <;> simp_all)

/-- C4, witness: player 1 submits first on a fresh BoardSetup record. -/
theorem submit_board_spec_witness :
    ((∃ g', submitBoard 1 sampleBoard (List.replicate 32 7)
        (List.replicate 16 3) gJoined = Except.ok g') ↔
      (gJoined.gameState = GameState.boardSetup ∧
        ((1 = gJoined.players.1 ∧ gJoined.boardsSubmitted.1 = false) ∨
         (1 ≠ gJoined.players.1 ∧ 1 = gJoined.players.2 ∧
           gJoined.boardsSubmitted.2 = false)))) :=
  (submit_board_spec 1 sampleBoard (List.replicate 32 7)
    (List.replicate 16 3) gJoined).1

/-- C5: the game address is derived deterministically from the constant tag
(the bytes of the string used by getGamePda) and the 8-byte little-endian
encoding of the seed; initializeGame fails when a record exists at the
derived address, and otherwise creates the record with the caller as
player 1, the default key as player 2 and phase AwaitingPlayer. -/
theorem initialize_game_spec (caller seed : Nat)
    (occupied : List Nat → Bool) :
    ("game".toList.map Char.toNat = gamePdaTag) ∧
    gamePdaSeeds seed = gamePdaTag ++ u64LEBytes seed ∧
    (u64LEBytes seed).length = 8 ∧
    (occupied (gamePdaSeeds seed) = true →
      initializeGame caller seed occupied = none) ∧
    (occupied (gamePdaSeeds seed) = false →
      ∃ g, initializeGame caller seed occupied = some g ∧
        g.players.1 = caller ∧ g.players.2 = defaultPubkey ∧
        g.gameState = GameState.awaitingPlayer ∧ g.gameSeed = seed) := by
  refine ⟨by decide, rfl, by simp [u64LEBytes], ?_, ?_⟩
  · intro h
    simp [initializeGame, h]
  · intro h
    simp only [initializeGame, h, Bool.false_eq_true, if_false]
    exact ⟨_, rfl, rfl, rfl, rfl, rfl⟩

/-- C5, witness: creation succeeds on an empty address space and fails on a
fully occupied one. -/
theorem initialize_game_spec_witness :
    ((fun _ => true) (gamePdaSeeds 42) = true →
      initializeGame 1 42 (fun _ => true) = none) ∧
    ((fun _ => false) (gamePdaSeeds 42) = false →
      ∃ g, initializeGame 1 42 (fun _ => false) = some g ∧
        g.players.1 = 1 ∧ g.players.2 = defaultPubkey ∧
        g.gameState = GameState.awaitingPlayer ∧ g.gameSeed = 42) :=
  ⟨(initialize_game_spec 1 42 (fun _ => true)).2.2.2.1,
   (initialize_game_spec 1 42 (fun _ => false)).2.2.2.2⟩

/-- C6: join_game succeeds exactly when the phase is AwaitingPlayer, the
caller differs from player 1 and the second slot still holds the default
key; on success it sets player 2 to the caller and the phase to BoardSetup,
and on failure the error is GameAlreadyFull or PlayerCannotJoinOwnGame (the
record, returned only on success, is untouched by a failure). -/
theorem join_game_spec (caller : Nat) (g : Game) :
    ((∃ g', joinGame caller g = Except.ok g') ↔
      (g.gameState = GameState.awaitingPlayer ∧ caller ≠ g.players.1 ∧
        g.players.2 = defaultPubkey)) ∧
    (∀ g', joinGame caller g = Except.ok g' →
      g' = { g with players := (g.players.1, caller),
                    gameState := GameState.boardSetup }) ∧
    (∀ e, joinGame caller g = Except.error e →
      e = CSError.gameAlreadyFull ∨ e = CSError.playerCannotJoinOwnGame) :=
  ⟨joinGame_ok_iff caller g, joinGame_ok_eq caller g,
   joinGame_error caller g⟩

/-- C6, witness: a second identity joins the freshly created record. -/
theorem join_game_spec_witness :
    gJoined = { gAwait with players := (gAwait.players.1, 2),
                            gameState := GameState.boardSetup } :=
  (join_game_spec 2 gAwait).2.1 gJoined rfl

/-- C7: for every 8-row board, the real branch of the pipeline derives the
shared secret from the fresh ephemeral private key and the cluster public
key, generates one 16-byte nonce, encrypts every row independently under the
same cipher and nonce taking exactly one ciphertext block per row, and
returns the blocks together with the ephemeral public key and that nonce. -/
theorem encrypt_board_pipeline (cp : CryptoPrimitives)
    (board : List (List Nat)) (clusterPublicKey privateKey : Nat)
    (rng : Nat → Nat) (hb : board.length = 8) :
    (encryptBoardReal cp board clusterPublicKey privateKey rng).encryptedRows
        = board.map (fun row =>
            (cp.encrypt (cp.getSharedSecret privateKey clusterPublicKey)
              (genNonce rng) row).headD []) ∧
    (encryptBoardReal cp board clusterPublicKey privateKey
      rng).encryptedRows.length = 8 ∧
    (encryptBoardReal cp board clusterPublicKey privateKey
      rng).ephemeralPublicKey = cp.getPublicKey privateKey ∧
    (encryptBoardReal cp board clusterPublicKey privateKey rng).nonce =
      genNonce rng ∧
    (encryptBoardReal cp board clusterPublicKey privateKey
      rng).nonce.length = 16 ∧
    encryptBoard (some cp) board clusterPublicKey privateKey rng =
      encryptBoardReal cp board clusterPublicKey privateKey rng := by
  refine ⟨rfl, ?_, rfl, rfl, ?_, rfl⟩
  · simp [encryptBoardReal, hb]
  · simp [encryptBoardReal, genNonce]

/-- C7, witness: the pipeline on a concrete board under the stub
capability. -/
theorem encrypt_board_pipeline_witness :
    sampleBoard.length = 8 ∧
    (encryptBoardReal stubCrypto sampleBoard 5 3
      (fun i => i)).encryptedRows.length = 8 :=
  ⟨by decide,
   (encrypt_board_pipeline stubCrypto sampleBoard 5 3 (fun i => i)
     (by decide)).2.1⟩

/-- C8: with the capability absent (client load failure or a thrown
encryption error), encryptBoard still resolves, returning the mock payload
whose blocks carry the plaintext cell values in their leading bytes, with
the same shape (one block per row, 16-byte nonce) as the real payload. -/
theorem encrypt_board_mock_fallback (board : List (List Nat))
    (clusterPublicKey privateKey : Nat) (rng : Nat → Nat)
    (hcells : ∀ row ∈ board, ∀ c ∈ row, c < 256) :
    encryptBoard none board clusterPublicKey privateKey rng =
      createMockEncryption board rng ∧
    (∀ available : Option CryptoPrimitives,
      (encryptBoard available board clusterPublicKey privateKey
        rng).encryptedRows.length = board.length ∧
      (encryptBoard available board clusterPublicKey privateKey
        rng).nonce.length = 16) ∧
    (∀ i j : Nat, j < 32 →
      ((encryptBoard none board clusterPublicKey privateKey
          rng).encryptedRows.getD i []).getD j 0 =
        (board.getD i []).getD j 0) := by
  refine ⟨rfl, ?_, ?_⟩
  · intro available
    cases available <;>
      simp [encryptBoard, createMockEncryption, encryptBoardReal, genNonce]
  · intro i j hj
    rcases hbi : board[i]? with _ | row
    · simp [encryptBoard, createMockEncryption,
        List.getD_eq_getElem?_getD, List.getElem?_map, hbi]
    · have hrow : row ∈ board := List.getElem?_mem hbi
      simp only [encryptBoard, createMockEncryption,
        List.getD_eq_getElem?_getD, List.getElem?_map, hbi]
      simp [List.getElem?_map, List.getElem?_range hj]
      rcases Nat.lt_or_ge j row.length with hlt | hge
      · simp only [List.getElem?_eq_getElem hlt, Option.getD_some]
        exact hcells row hrow _ (List.getElem_mem hlt)
      · simp [List.getElem?_eq_none hge]

/-- C8, witness: the fallback on a concrete board exposes the plaintext in
block position zero. -/
theorem encrypt_board_mock_fallback_witness :
    (∀ row ∈ sampleBoard, ∀ c ∈ row, c < 256) ∧
    (((encryptBoard none sampleBoard 5 3
        (fun i => i)).encryptedRows.getD 0 []).getD 0 0 =
      (sampleBoard.getD 0 []).getD 0 0) :=
  ⟨by decide,
   (encrypt_board_mock_fallback sampleBoard 5 3 (fun i => i)
     (by decide)).2.2 0 0 (by decide)⟩

/-- C9: encrypting a board with the pipeline and decrypting every block with
the shared secret the cluster derives from its own private key and the
payload ephemeral public key reproduces the original board. -/
theorem encrypt_decrypt_round_trip (cp : CryptoPrimitives)
    (board : List (List Nat)) (clusterPrivateKey privateKey : Nat)
    (rng : Nat → Nat) (hb : board.length = 8) :
    decryptBoard cp
      (cp.getSharedSecret clusterPrivateKey
        ((encryptBoard (some cp) board (cp.getPublicKey clusterPrivateKey)
          privateKey rng).ephemeralPublicKey))
      (genNonce rng)
      ((encryptBoard (some cp) board (cp.getPublicKey clusterPrivateKey)
        privateKey rng).encryptedRows) = board := by
  simp only [encryptBoard, encryptBoardReal, decryptBoard, List.map_map]
  rw [cp.dh_comm clusterPrivateKey privateKey]
  have hfun :
      ((fun b => cp.decrypt
          (cp.getSharedSecret privateKey (cp.getPublicKey clusterPrivateKey))
          (genNonce rng) b) ∘
        (fun row => (cp.encrypt
          (cp.getSharedSecret privateKey (cp.getPublicKey clusterPrivateKey))
          (genNonce rng) row).headD [])) = id :=
    funext fun row => cp.decrypt_encrypt _ _ row
  rw [hfun, List.map_id]

/-- C9, witness: the round trip on a concrete board under the stub
capability. -/
theorem encrypt_decrypt_round_trip_witness :
    sampleBoard.length = 8 ∧
    decryptBoard stubCrypto
      (stubCrypto.getSharedSecret 11
        ((encryptBoard (some stubCrypto) sampleBoard
          (stubCrypto.getPublicKey 11) 7 (fun i => i)).ephemeralPublicKey))
      (genNonce (fun i => i))
      ((encryptBoard (some stubCrypto) sampleBoard
        (stubCrypto.getPublicKey 11) 7
        (fun i => i)).encryptedRows) = sampleBoard :=
  ⟨by decide,
   encrypt_decrypt_round_trip stubCrypto sampleBoard 11 7 (fun i => i)
     (by decide)⟩

/-- C10: reveal_boards_callback receives only the payer account in the IDL
(so it cannot write the game record), and in the modelled semantics a
successful callback leaves every field of the record unchanged, clears the
pending reveal request, and on a success payload emits the audit event
carrying both decoded 8x8 boards. -/
theorem reveal_boards_callback_frame :
    revealBoardsCallbackAccounts = ["payer"] ∧
    "game" ∉ revealBoardsCallbackAccounts ∧
    (∀ (out : ComputationOutputs) (s t : ProtState)
        (e : Option BoardRevealEvent),
      revealBoardsCallback out s = Except.ok (t, e) →
        t.game = s.game ∧ t.pending = none ∧
        (∃ req, s.pending = some req ∧ req.kind = ReqKind.revealReq) ∧
        (∀ b, out = ComputationOutputs.bytes b →
          e = some ⟨(decodeBoards b).1, (decodeBoards b).2⟩)) ∧
    (∀ b, (decodeBoards b).1.length = 8 ∧ (decodeBoards b).2.length = 8 ∧
      (∀ r ∈ (decodeBoards b).1, r.length = 8) ∧
      (∀ r ∈ (decodeBoards b).2, r.length = 8)) := by
  refine ⟨rfl, by decide, ?_, ?_⟩
  · intro out s t e h
    obtain ⟨h1, h2, h3, h4, _⟩ := revealBoardsCallback_ok out s t e h
    exact ⟨h1, h2, h3, fun b hb => h4 b hb⟩
  · intro b
    refine ⟨by simp [decodeBoards], by simp [decodeBoards], ?_, ?_⟩ <;>
      (intro r hr; simp [decodeBoards] at hr; obtain ⟨x, _, rfl⟩ := hr; simp)

/-- C10, witness: a concrete successful reveal callback leaves the finished
record unchanged and emits the event. -/
theorem reveal_boards_callback_frame_witness :
    (⟨gWon, none⟩ : ProtState).game = sRevealPending.game ∧
    (⟨gWon, none⟩ : ProtState).pending = none ∧
    (∃ req, sRevealPending.pending = some req ∧
      req.kind = ReqKind.revealReq) ∧
    (∀ b, ComputationOutputs.bytes (List.replicate 128 1) =
        ComputationOutputs.bytes b →
      (some ⟨(decodeBoards (List.replicate 128 1)).1,
        (decodeBoards (List.replicate 128 1)).2⟩ :
          Option BoardRevealEvent) =
        some ⟨(decodeBoards b).1, (decodeBoards b).2⟩) :=
  reveal_boards_callback_frame.2.2.1
    (ComputationOutputs.bytes (List.replicate 128 1)) sRevealPending
    ⟨gWon, none⟩
    (some ⟨(decodeBoards (List.replicate 128 1)).1,
      (decodeBoards (List.replicate 128 1)).2⟩) rfl

end CipherStratego
